import Mathlib

set_option maxRecDepth 10000

/-!
Verification development for the boolean/phrase/proximity query parser and
DSL compiler of amcat (amcat/tools/queryparser.py).

The Python source is shallowly embedded below:

* AST classes Term, Quote, Boolean, Span become the inductive type Node.
  Span is a subclass of Boolean in the source; here it is a separate
  constructor carrying its terms, slop, unified field, and in_order flag.
* The elastic DSL (Python dicts/lists/strings/bools) becomes the inductive
  type Json.  Dict key order is preserved as written in the source.
* Functions that raise ParseError return Except String.
* The in-place mutation performed by _check_span (term.field = None) is
  modelled by state passing: check_span returns the updated term list
  together with the unified field.
-/

namespace AmcatQP

/-- JSON-like values, the target of the DSL compiler (Python dicts, lists,
strings, booleans and - for specification purposes - integers). -/
inductive Json where
  | str (s : String)
  | num (n : Int)
  | bool (b : Bool)
  | arr (xs : List Json)
  | obj (kvs : List (String × Json))

/-- AST nodes of the query language (classes Term, Quote, Boolean, Span of
the source).  For Span, terms/slop/field/inOrder mirror the attributes set
in Span.__init__ (slop is kept as the raw digit string, exactly as in the
source, which never converts it to an integer). -/
inductive Node where
  | term (text : String) (field : Option String)
  | quote (text : String) (field : Option String)
  | bool (op : String) (terms : List Node) (implicit : Bool)
  | span (terms : List Node) (slop : String) (field : Option String) (inOrder : Bool)

/-- BaseTerm.__init__ normalizes the wildcard marker: text.replace("!", "*").
Since both pattern and replacement are single characters this is a
character map. -/
def normChar (c : Char) : Char := if c = '!' then '*' else c

/-- text.replace("!", "*") from BaseTerm.__init__. -/
def normText (s : String) : String := String.mk (s.data.map normChar)

/-- Term(text, field): BaseTerm construction for a plain term. -/
def mkTerm (text : String) (field : Option String) : Node :=
  Node.term (normText text) field

/-- Quote(text, field): BaseTerm construction for a quoted phrase. -/
def mkQuote (text : String) (field : Option String) : Node :=
  Node.quote (normText text) field

/-- FieldTerm.qfield: self.field or "_all".  Fields produced by the grammar
are non-empty words, so the Python falsiness of "" coincides with none. -/
def qfield : Option String → String
  | none => "_all"
  | some f => f

/-- Python: '*' in text (substring test for the one-character string "*"). -/
def hasStar (s : String) : Bool := s.data.contains '*'

/-- Python: text.endswith("*") for the one-character suffix "*". -/
def lastIsStar (s : String) : Bool :=
  match s.data.getLast? with
  | some c => c = '*'
  | none => false

/-- Python: text[:-1]. -/
def dropLastChar (s : String) : String := String.mk s.data.dropLast

/-- String rendering of a node, used only inside error messages
(the source interpolates the offending sub-expression into the message;
nested renderings are abbreviated, no claim depends on message payloads). -/
def describe : Node → String
  | Node.term text f => qfield f ++ "::" ++ text
  | Node.quote text f => qfield f ++ "::QUOTE[" ++ text ++ "]"
  | Node.bool op _ _ => op ++ "[...]"
  | Node.span _ slop f _ => qfield f ++ "::PROX/" ++ slop ++ "[...]"

/-- The field-accumulation step of _check_span:
if fld: if not f: f = fld; elif f != fld: raise ParseError(...). -/
def stepField (f fld : Option String) : Except String (Option String) :=
  match fld with
  | none => Except.ok f
  | some g =>
    match f with
    | none => Except.ok (some g)
    | some h =>
      if h = g then Except.ok (some h)
      else Except.error "Proximity queries should refer to a unique field"

/-- The function _check_span with allow_boolean=False (the recursive call made for the
terms of a nested OR disjunction): only Term children are allowed; each
Term's field is read and then cleared (term.field = None).  The updated
term list is returned alongside the unified field, modelling the in-place
mutation of the source. -/
def check_span_inner : List Node → Option String → Except String (Option String × List Node)
  | [], f => Except.ok (f, [])
  | t :: rest, f =>
    match t with
    | Node.term text fld =>
      match stepField f fld with
      | Except.error e => Except.error e
      | Except.ok f1 =>
        match check_span_inner rest f1 with
        | Except.error e => Except.error e
        | Except.ok (f2, rest2) => Except.ok (f2, Node.term text none :: rest2)
    | _ => Except.error ("Proximity queries cannot contain: " ++ describe t)

/-- The function _check_span with allow_boolean=True (the call made from Span.__init__):
children are Terms, whose field is read and cleared, or OR Booleans, whose
terms are checked with allow_boolean=False.  Any other child (AND/NOT
Boolean, Span - operator "SPAN" - or Quote) raises ParseError. -/
def check_span : List Node → Option String → Except String (Option String × List Node)
  | [], f => Except.ok (f, [])
  | t :: rest, f =>
    match t with
    | Node.term text fld =>
      match stepField f fld with
      | Except.error e => Except.error e
      | Except.ok f1 =>
        match check_span rest f1 with
        | Except.error e => Except.error e
        | Except.ok (f2, rest2) => Except.ok (f2, Node.term text none :: rest2)
    | Node.bool op ts impl =>
      if op = "OR" then
        match check_span_inner ts none with
        | Except.error e => Except.error e
        | Except.ok (fld, ts2) =>
          match stepField f fld with
          | Except.error e => Except.error e
          | Except.ok f1 =>
            match check_span rest f1 with
            | Except.error e => Except.error e
            | Except.ok (f2, rest2) => Except.ok (f2, Node.bool op ts2 impl :: rest2)
      else Except.error ("Proximity queries cannot contain: " ++ describe t)
    | _ => Except.error ("Proximity queries cannot contain: " ++ describe t)

/-- Span.__init__(terms, slop, field, in_order): runs _check_span(terms, field)
(which validates and clears the Term fields in place), stores the unified
field on the Span, and keeps slop and in_order as given. -/
def Span_new (terms : List Node) (slop : String) (field : Option String) (inOrder : Bool) : Except String Node :=
  match check_span terms field with
  | Except.ok (f, ts) => Except.ok (Node.span ts slop f inOrder)
  | Except.error e => Except.error e

/-- The span-term leaf clause emitted by Span.get_dsl.get_clause for a plain term. -/
def spanTermJson (field text : String) : Json :=
  Json.obj [("span_term", Json.obj [(field, Json.str text)])]

/-- The span-multi (prefix) leaf clause emitted by Span.get_dsl.get_clause
for a term ending in the wildcard character. -/
def spanMultiJson (field text : String) : Json :=
  Json.obj [("span_multi", Json.obj [("match", Json.obj [("prefix",
    Json.obj [(field, Json.obj [("value", Json.str text)])])])])]

mutual
/-- Span.get_dsl.get_clause(term, field): a Term yields a singleton list with
its span clause (prefix form when the text ends in the wildcard); any other
node falls into the else branch, which maps over term.terms taking the head
of each child's clause list (index [0] in the source).  A Quote has no
.terms attribute (AttributeError in the source, unreachable for validated
spans) and is modelled as the empty list. -/
def get_clause (field : String) : Node → List Json
  | Node.term text _ =>
    if lastIsStar text then [spanMultiJson field (dropLastChar text)]
    else [spanTermJson field text]
  | Node.bool _ ts _ => get_clause_heads field ts
  | Node.span ts _ _ _ => get_clause_heads field ts
  | Node.quote _ _ => []

/-- The list comprehension [get_clause(t, field)[0] for t in term.terms];
indexing an empty clause list would raise IndexError in the source
(unreachable), modelled by headD with an empty object. -/
def get_clause_heads (field : String) : List Node → List Json
  | [] => []
  | t :: rest => (get_clause field t).headD (Json.obj []) :: get_clause_heads field rest
end

/-- The comprehension [get_clause(t, self.qfield) for t in self.terms]: the per-child clause
lists over which the cartesian product is taken. -/
def get_clause_lists (field : String) (ts : List Node) : List (List Json) :=
  ts.map (get_clause field)

/-- itertools.product over a list of lists, in odometer order (leftmost
factor varies slowest), as used by Span.get_dsl. -/
def listProduct {α : Type} : List (List α) → List (List α)
  | [] => [[]]
  | l :: rest => l.flatMap (fun x => (listProduct rest).map (fun tail => x :: tail))

/-- One span_near clause: {"span_near": {"slop": slop, "in_order": in_order,
"clauses": [...]}} with slop kept as the raw digit string. -/
def spanNearJson (slop : String) (inOrder : Bool) (cs : List Json) : Json :=
  Json.obj [("span_near", Json.obj [("slop", Json.str slop),
    ("in_order", Json.bool inOrder), ("clauses", Json.arr cs)])]

/-- The outer disjunction wrapper {"bool": {"should": [...]}}. -/
def shouldJson (cs : List Json) : Json :=
  Json.obj [("bool", Json.obj [("should", Json.arr cs)])]

/-- dict(OR="should", AND="must", NOT="must_not")[op]; any other key raises
KeyError in the source (unreachable: the grammar only builds these three). -/
def opName (op : String) : String :=
  if op = "OR" then "should" else if op = "AND" then "must" else "must_not"

/-- if len(clauses) == 1: return clauses[0] else {"bool": {"should": clauses}}
(the final step of Span.get_dsl). -/
def unwrapSingle (cls : List Json) : Json :=
  match cls with
  | [c] => c
  | _ => shouldJson cls

mutual
/-- get_dsl of each AST class:
Term → term / wildcard clause; Quote → match_phrase / match_phrase_prefix
(prefix form strips the final wildcard character); Boolean NOT →
{"bool": {"must": [first child], "must_not": [remaining children]}}
(terms[0] on an empty list would raise IndexError in the source,
unreachable, modelled by empty lists); other Boolean → {"bool": {op: [...]}};
Span → cartesian product of the children's clause lists, one span_near per
tuple, wrapped in bool/should unless exactly one clause results. -/
def get_dsl : Node → Json
  | Node.term text f =>
    if hasStar text then Json.obj [("wildcard", Json.obj [(qfield f, Json.str text)])]
    else Json.obj [("term", Json.obj [(qfield f, Json.str text)])]
  | Node.quote text f =>
    if lastIsStar text then
      Json.obj [("match_phrase_prefix", Json.obj [(qfield f, Json.str (dropLastChar text))])]
    else Json.obj [("match_phrase", Json.obj [(qfield f, Json.str text)])]
  | Node.bool op ts _ =>
    if op = "NOT" then
      match ts with
      | [] => Json.obj [("bool", Json.obj [("must", Json.arr []), ("must_not", Json.arr [])])]
      | t :: rest =>
        Json.obj [("bool", Json.obj [("must", Json.arr [get_dsl t]),
          ("must_not", Json.arr (get_dsl_list rest))])]
    else Json.obj [("bool", Json.obj [(opName op, Json.arr (get_dsl_list ts))])]
  | Node.span ts slop f io =>
    unwrapSingle ((listProduct (get_clause_lists (qfield f) ts)).map (spanNearJson slop io))

/-- The list comprehension [term.get_dsl() for term in self.terms]. -/
def get_dsl_list : List Node → List Json
  | [] => []
  | t :: rest => get_dsl t :: get_dsl_list rest
end

/-!
The grammar (get_grammar in the source) is built with pyparsing:

  term   = Word(LETTERS)            LETTERS = BMP chars that are not
                                    whitespace and not one of " : ( ) ~
  field  = Word(alphas) + ":"       (suppressed colon)
  quote  = QuotedString(DQUOTE) + Optional("~" + Word(nums))
  fterm  = Optional(field + ":") + (quote | term), parse action get_term
  expr   = operatorPrecedence(fterm,
             [(AND, 2, LEFT), (NOT, 2, LEFT), (W/ + nums, 2, LEFT),
              (Optional(OR, default="implicit_OR"), 2, LEFT)])
  with a single parse action get_boolean_or_term on the resulting
  expression (so the action fires for the whole input and for each
  parenthesized sub-expression, but NOT for the raw Group produced at
  each inner precedence level - those reach get_boolean_or_term as plain
  ParseResults and are filtered out by its isinstance test).

The embedding below tokenizes the input (assuming, as all queries in the
source's own tests do, that operator keywords stand on their own between
separators - pyparsing's scannerless matching of keywords inside larger
words is not modelled) and then runs a recursive-descent parser whose
shape mirrors operatorPrecedence exactly: each level parses its
sub-level, folds left over its operator, and wraps in a PR.group only
when at least one operator occurred.  ParseResults values are modelled by
PR; results names are modelled by scanning a group's top-level operator
entries (last occurrence wins, as repeated setResultsName assignments
overwrite).  pyparsing's two failure modes are kept apart: PErr.soft is a
backtrackable ParseException, PErr.hard is a ParseError (ValueError)
raised by a parse action, which aborts the whole parse.  Recursion is
fuelled; the entry point supplies ample fuel.
-/

/-- Tokens of the grammar.  Field prefixes (Word(alphas) + ":") attach to
the following term or quoted phrase, as in fterm. -/
inductive Tok where
  | lpar
  | rpar
  | key (s : String)
  | spanOp (slop : String)
  | word (field : Option String) (s : String)
  | quoted (field : Option String) (s : String) (slop : Option String)

/-- pyparsing ParseResults, as far as get_boolean_or_term inspects them:
finished AST nodes (from fterm or a parenthesized sub-expression),
operator entries carrying the results name "operator" (for W/ also the
slop digits), and Groups produced at each precedence level. -/
inductive PR where
  | node (n : Node)
  | op (name : String) (slop : Option String)
  | group (xs : List PR)

/-- Backtrackable ParseException (soft) versus ParseError raised by a parse
action (hard), which is a ValueError and aborts the parse. -/
inductive PErr where
  | soft (msg : String)
  | hard (msg : String)

/-- A character of LETTERS: BMP, not whitespace, not one of " : ( ) ~. -/
def isWordChar (c : Char) : Bool :=
  c.toNat < 65536 && !c.isWhitespace && c != '"' && c != ':' && c != '(' && c != ')' && c != '~'

/-- pyparsing alphas: ASCII letters. -/
def isAlphaChar (c : Char) : Bool :=
  ('a' ≤ c && c ≤ 'z') || ('A' ≤ c && c ≤ 'Z')

/-- pyparsing nums: ASCII digits. -/
def isDigitChar (c : Char) : Bool := '0' ≤ c && c ≤ '9'

/-- Recognize the proximity operator W/ followed by one or more digits. -/
def spanSlopOf (w : String) : Option String :=
  match w.data with
  | 'W' :: '/' :: ds =>
    if ds.isEmpty then none
    else if ds.all isDigitChar then some (String.mk ds) else none
  | _ => none

/-- Classify a bare (fieldless) word: the keywords AND/OR/NOT, the W/<n>
proximity operator, or a plain term. -/
def classifyWord (w : String) : Tok :=
  if w = "AND" || w = "OR" || w = "NOT" then Tok.key w
  else
    match spanSlopOf w with
    | some sl => Tok.spanOp sl
    | none => Tok.word none w

mutual
/-- Tokenizer: whitespace is skipped (pyparsing default), parentheses and
quoted phrases are delimiters, everything else is a maximal run of
LETTERS characters; an all-alpha run immediately followed by a colon is a
field prefix for the next term or phrase. -/
def tokenizeChars : Nat → List Char → Except String (List Tok)
  | 0, _ => Except.error "tokenizer out of fuel"
  | _ + 1, [] => Except.ok []
  | fuel + 1, c :: cs =>
    if c.isWhitespace then tokenizeChars fuel cs
    else if c = '(' then
      match tokenizeChars fuel cs with
      | Except.ok ts => Except.ok (Tok.lpar :: ts)
      | Except.error e => Except.error e
    else if c = ')' then
      match tokenizeChars fuel cs with
      | Except.ok ts => Except.ok (Tok.rpar :: ts)
      | Except.error e => Except.error e
    else if c = '"' then tokenizeQuote fuel none (c :: cs)
    else if isWordChar c then
      let w := (c :: cs).takeWhile isWordChar
      let rest := (c :: cs).dropWhile isWordChar
      match rest with
      | ':' :: rest2 =>
        if w.all isAlphaChar then
          match rest2 with
          | '"' :: _ => tokenizeQuote fuel (some (String.mk w)) rest2
          | _ =>
            let w2 := rest2.takeWhile isWordChar
            if w2.isEmpty then Except.error "expected a term after the field colon"
            else
              match tokenizeChars fuel (rest2.dropWhile isWordChar) with
              | Except.ok ts => Except.ok (Tok.word (some (String.mk w)) (String.mk w2) :: ts)
              | Except.error e => Except.error e
        else Except.error "unexpected colon"
      | _ =>
        match tokenizeChars fuel rest with
        | Except.ok ts => Except.ok (classifyWord (String.mk w) :: ts)
        | Except.error e => Except.error e
    else Except.error "unexpected character"

/-- QuotedString(DQUOTE) + Optional("~" + Word(nums)): the body runs to the
next double quote (no escapes); pyparsing's whitespace skipping admits
space before the tilde and the digits. -/
def tokenizeQuote : Nat → Option String → List Char → Except String (List Tok)
  | 0, _, _ => Except.error "tokenizer out of fuel"
  | fuel + 1, f, cs =>
    match cs with
    | c :: cs2 =>
      if c = '"' then
        let body := cs2.takeWhile (fun d => d ≠ '"')
        match cs2.dropWhile (fun d => d ≠ '"') with
        | d :: rest =>
          if d = '"' then
            let rest1 := rest.dropWhile Char.isWhitespace
            match rest1 with
            | '~' :: rest2 =>
              let rest3 := rest2.dropWhile Char.isWhitespace
              let ds := rest3.takeWhile isDigitChar
              if ds.isEmpty then Except.error "expected digits after tilde"
              else
                match tokenizeChars fuel (rest3.dropWhile isDigitChar) with
                | Except.ok ts =>
                  Except.ok (Tok.quoted f (String.mk body) (some (String.mk ds)) :: ts)
                | Except.error e => Except.error e
            | _ =>
              match tokenizeChars fuel rest1 with
              | Except.ok ts => Except.ok (Tok.quoted f (String.mk body) none :: ts)
              | Except.error e => Except.error e
          else Except.error "unterminated quote"
        | [] => Except.error "unterminated quote"
      else Except.error "expected quote"
    | [] => Except.error "expected quote"
end

/-- Tokenize a whole input string. -/
def tokenize (s : String) : Except String (List Tok) :=
  tokenizeChars (s.data.length + 1) s.data

/-- The nodes of a precedence-level Group: the isinstance(t, (Boolean,
BaseTerm)) filter of get_boolean_or_term.  Operator strings and raw inner
Groups (plain ParseResults) are dropped. -/
def prNodes (xs : List PR) : List Node :=
  xs.filterMap (fun x => match x with | PR.node n => some n | _ => none)

/-- The "operator" results name of a Group: repeated assignments overwrite,
so the last top-level operator entry wins.  Names inside nested Groups are
scoped to those Groups and invisible here. -/
def prLastOp (xs : List PR) : Option (String × Option String) :=
  (xs.filterMap (fun x => match x with | PR.op o sl => some (o, sl) | _ => none)).getLast?

/-- get_boolean_or_term: a lone Boolean/BaseTerm passes through; otherwise
the token is a Group whose operator decides the node: W/ builds a Span
(construction may raise), implicit_OR is stripped to OR with the implicit
flag, anything else builds a Boolean. -/
def get_boolean_or_term (p : PR) : Except String Node :=
  match p with
  | PR.node n => Except.ok n
  | PR.op _ _ => Except.error "unexpected bare operator"
  | PR.group xs =>
    match prLastOp xs with
    | none => Except.error "operator results name missing"
    | some (o, osl) =>
      if o = "W/" then
        match osl with
        | some slop => Span_new (prNodes xs) slop none false
        | none => Except.error "proximity operator without slop"
      else
        let implicit := o = "implicit_OR"
        let op := if implicit then "OR" else o
        Except.ok (Node.bool op (prNodes xs) implicit)

/-- A level result that saw no operator passes through unwrapped
(thisExpr = matchExpr | lastExpr); otherwise the accumulated elements
form a Group. -/
def finishLevel (acc : List PR) (toks : List Tok) : Except PErr (PR × List Tok) :=
  match acc with
  | [p] => Except.ok (p, toks)
  | _ => Except.ok (PR.group acc, toks)

mutual
/-- fterm or a parenthesized sub-expression (lastExpr of
operatorPrecedence).  A parenthesized sub-expression re-enters the full
expression, whose parse action (get_boolean_or_term) fires for it. -/
def parseAtom : Nat → List Tok → Except PErr (PR × List Tok)
  | 0, _ => Except.error (PErr.soft "out of fuel")
  | fuel + 1, toks =>
    match toks with
    | Tok.lpar :: rest =>
      match parseRet fuel rest with
      | Except.ok (n, Tok.rpar :: rest2) => Except.ok (PR.node n, rest2)
      | Except.ok _ => Except.error (PErr.soft "expected closing parenthesis")
      | Except.error e => Except.error e
    | Tok.word f s :: rest =>
      match get_term fuel (Tok.word f s) with
      | Except.ok n => Except.ok (PR.node n, rest)
      | Except.error e => Except.error e
    | Tok.quoted f s sl :: rest =>
      match get_term fuel (Tok.quoted f s sl) with
      | Except.ok n => Except.ok (PR.node n, rest)
      | Except.error e => Except.error e
    | _ => Except.error (PErr.soft "expected a term")

/-- get_term: a quote with slop is a lucene-style span; a quote with an
internal (non-final) wildcard hits Span(tokens.quote, tokens.field, 0,
in_order=True) - whose positional arguments are scrambled, so the phrase
STRING is passed as the terms list and _check_span then iterates over its
characters, raising ParseError at the first character (which is neither a
Term nor a Boolean); any other quote builds a Quote; a word builds a
Term. -/
def get_term : Nat → Tok → Except PErr Node
  | 0, _ => Except.error (PErr.soft "out of fuel")
  | fuel + 1, tok =>
    match tok with
    | Tok.word f s => Except.ok (mkTerm s f)
    | Tok.quoted f s (some sl) => lucene_span fuel s f sl
    | Tok.quoted f s none =>
      if hasStar (dropLastChar s) then
        Except.error (PErr.hard ("Proximity queries cannot contain: " ++ String.mk (s.data.take 1)))
      else Except.ok (mkQuote s f)
    | _ => Except.error (PErr.soft "not a term token")

/-- lucene_span(quote, field, slop): re-parse the phrase body with the full
grammar; the result must be an implicit OR Boolean (a flat list of
terms), otherwise ParseError (the source appends the offending clause's
repr to the message; that suffix is dropped here, no claim depends on
it); then Span(clause.terms, slop, field) with in_order left at its
default False. -/
def lucene_span : Nat → String → Option String → String → Except PErr Node
  | 0, _, _, _ => Except.error (PErr.soft "out of fuel")
  | fuel + 1, quote, field, slop =>
    match parse_to_terms_fueled fuel quote with
    | Except.error e => Except.error e
    | Except.ok clause =>
      match clause with
      | Node.bool op ts impl =>
        if op = "OR" && impl then
          match Span_new ts slop field false with
          | Except.ok n => Except.ok n
          | Except.error m => Except.error (PErr.hard m)
        else
          Except.error (PErr.hard "Lucene-style proximity queries must contain a list of terms")
      | _ => Except.error (PErr.hard "Lucene-style proximity queries must contain a list of terms")

/-- AND level: fterm (AND fterm)*. -/
def parseAnd : Nat → List Tok → Except PErr (PR × List Tok)
  | 0, _ => Except.error (PErr.soft "out of fuel")
  | fuel + 1, toks =>
    match parseAtom fuel toks with
    | Except.ok (p, rest) => parseAndLoop fuel [p] rest
    | Except.error e => Except.error e

def parseAndLoop : Nat → List PR → List Tok → Except PErr (PR × List Tok)
  | 0, _, _ => Except.error (PErr.soft "out of fuel")
  | fuel + 1, acc, toks =>
    match toks with
    | Tok.key k :: rest =>
      if k = "AND" then
        match parseAtom fuel rest with
        | Except.ok (p, rest2) => parseAndLoop fuel (acc ++ [PR.op "AND" none, p]) rest2
        | Except.error (PErr.soft _) => finishLevel acc toks
        | Except.error e => Except.error e
      else finishLevel acc toks
    | _ => finishLevel acc toks

/-- NOT level over the AND level. -/
def parseNot : Nat → List Tok → Except PErr (PR × List Tok)
  | 0, _ => Except.error (PErr.soft "out of fuel")
  | fuel + 1, toks =>
    match parseAnd fuel toks with
    | Except.ok (p, rest) => parseNotLoop fuel [p] rest
    | Except.error e => Except.error e

def parseNotLoop : Nat → List PR → List Tok → Except PErr (PR × List Tok)
  | 0, _, _ => Except.error (PErr.soft "out of fuel")
  | fuel + 1, acc, toks =>
    match toks with
    | Tok.key k :: rest =>
      if k = "NOT" then
        match parseAnd fuel rest with
        | Except.ok (p, rest2) => parseNotLoop fuel (acc ++ [PR.op "NOT" none, p]) rest2
        | Except.error (PErr.soft _) => finishLevel acc toks
        | Except.error e => Except.error e
      else finishLevel acc toks
    | _ => finishLevel acc toks

/-- W/<n> proximity level over the NOT level. -/
def parseSpan : Nat → List Tok → Except PErr (PR × List Tok)
  | 0, _ => Except.error (PErr.soft "out of fuel")
  | fuel + 1, toks =>
    match parseNot fuel toks with
    | Except.ok (p, rest) => parseSpanLoop fuel [p] rest
    | Except.error e => Except.error e

def parseSpanLoop : Nat → List PR → List Tok → Except PErr (PR × List Tok)
  | 0, _, _ => Except.error (PErr.soft "out of fuel")
  | fuel + 1, acc, toks =>
    match toks with
    | Tok.spanOp sl :: rest =>
      match parseNot fuel rest with
      | Except.ok (p, rest2) => parseSpanLoop fuel (acc ++ [PR.op "W/" (some sl), p]) rest2
      | Except.error (PErr.soft _) => finishLevel acc toks
      | Except.error e => Except.error e
    | _ => finishLevel acc toks

/-- OR level over the proximity level; the operator is
Optional(OR, default="implicit_OR"), so juxtaposition continues the level
with the implicit_OR operator entry. -/
def parseOr : Nat → List Tok → Except PErr (PR × List Tok)
  | 0, _ => Except.error (PErr.soft "out of fuel")
  | fuel + 1, toks =>
    match parseSpan fuel toks with
    | Except.ok (p, rest) => parseOrLoop fuel [p] rest
    | Except.error e => Except.error e

def parseOrLoop : Nat → List PR → List Tok → Except PErr (PR × List Tok)
  | 0, _, _ => Except.error (PErr.soft "out of fuel")
  | fuel + 1, acc, toks =>
    match toks with
    | Tok.key k :: rest =>
      if k = "OR" then
        match parseSpan fuel rest with
        | Except.ok (p, rest2) => parseOrLoop fuel (acc ++ [PR.op "OR" none, p]) rest2
        | Except.error (PErr.soft _) => finishLevel acc toks
        | Except.error e => Except.error e
      else parseOrImplicit fuel acc toks
    | _ => parseOrImplicit fuel acc toks

def parseOrImplicit : Nat → List PR → List Tok → Except PErr (PR × List Tok)
  | 0, _, _ => Except.error (PErr.soft "out of fuel")
  | fuel + 1, acc, toks =>
    match parseSpan fuel toks with
    | Except.ok (p, rest2) => parseOrLoop fuel (acc ++ [PR.op "implicit_OR" none, p]) rest2
    | Except.error (PErr.soft _) => finishLevel acc toks
    | Except.error e => Except.error e

/-- The full expression (ret of operatorPrecedence) with its parse action
get_boolean_or_term; a ParseError raised there is a hard failure. -/
def parseRet : Nat → List Tok → Except PErr (Node × List Tok)
  | 0, _ => Except.error (PErr.soft "out of fuel")
  | fuel + 1, toks =>
    match parseOr fuel toks with
    | Except.ok (p, rest) =>
      match get_boolean_or_term p with
      | Except.ok n => Except.ok (n, rest)
      | Except.error m => Except.error (PErr.hard m)
    | Except.error e => Except.error e

/-- parse_to_terms(s) = grammar.parseString(s, parseAll=True)[0], with the
given fuel (lucene_span re-enters here for the phrase body). -/
def parse_to_terms_fueled : Nat → String → Except PErr Node
  | 0, _ => Except.error (PErr.soft "out of fuel")
  | fuel + 1, s =>
    match tokenize s with
    | Except.error m => Except.error (PErr.soft m)
    | Except.ok toks =>
      match parseRet fuel toks with
      | Except.ok (n, []) => Except.ok n
      | Except.ok (_, _ :: _) => Except.error (PErr.soft "trailing input not parsed")
      | Except.error e => Except.error e
end

/-- parse_to_terms with ample fuel, collapsing the two exception kinds into
the error message the caller observes. -/
def parse_to_terms (s : String) : Except String Node :=
  match parse_to_terms_fueled (8 * s.length + 64) s with
  | Except.ok n => Except.ok n
  | Except.error (PErr.soft m) => Except.error m
  | Except.error (PErr.hard m) => Except.error m

/-- parse(s) = parse_to_terms(s).get_dsl(). -/
def parse (s : String) : Except String Json :=
  match parse_to_terms s with
  | Except.ok n => Except.ok (get_dsl n)
  | Except.error e => Except.error e

/-!
Derived predicates used to state the claims.
-/

/-- Whether a computation raised (ParseError or ParseException). -/
def isErr {ε α : Type} : Except ε α → Bool
  | Except.error _ => true
  | Except.ok _ => false

/-- isinstance(t, Term). -/
def isTermNode : Node → Bool
  | Node.term _ _ => true
  | _ => false

/-- A Term with no explicit field. -/
def isPlainTerm : Node → Bool
  | Node.term _ none => true
  | _ => false

/-- A Boolean or Span node (the shapes a one-level disjunction inside a
proximity group may not contain). -/
def isBoolLike : Node → Bool
  | Node.bool _ _ _ => true
  | Node.span _ _ _ _ => true
  | _ => false

/-- The child shapes claim C2 forbids inside a Span: AND and NOT Booleans,
nested Spans, and OR groups nested deeper than one level (an OR whose own
children contain a Boolean or Span). -/
def badChild : Node → Bool
  | Node.bool op ts _ => (op == "AND" || op == "NOT") || (op == "OR" && ts.any isBoolLike)
  | Node.span _ _ _ _ => true
  | _ => false

/-- The explicit field of a Term, if any. -/
def termFieldList : Node → List String
  | Node.term _ (some g) => [g]
  | _ => []

/-- The explicit Term fields of a list of nodes (one level). -/
def termFieldsOf : List Node → List String
  | [] => []
  | t :: rest => termFieldList t ++ termFieldsOf rest

/-- The explicit fields a node contributes inside a Span: its own field for
a Term, its children's Term fields for a Boolean. -/
def nodeFields : Node → List String
  | Node.bool _ ts _ => termFieldsOf ts
  | t => termFieldList t

/-- All explicit fields contributed by a Span's children. -/
def spanFields : List Node → List String
  | [] => []
  | t :: rest => nodeFields t ++ spanFields rest

/-- A Term whose field attribute has been cleared. -/
def clearedTerm : Node → Bool
  | Node.term _ f => f.isNone
  | _ => true

/-- Every Term at the top level or inside a one-level disjunction has its
field attribute cleared. -/
def cleared : Node → Bool
  | Node.term _ f => f.isNone
  | Node.bool _ ts _ => ts.all clearedTerm
  | _ => true

/-- The test guarding lucene_span: isinstance(clause, Boolean) and
clause.operator == "OR" and clause.implicit. -/
def isImplicitOr : Node → Bool
  | Node.bool op _ impl => (op = "OR") && impl
  | _ => false

/-- The list of span_near clauses at the top of a compiled Span: the
should-list when the result is wrapped, the clause itself otherwise. -/
def topSpanNears : Json → List Json
  | Json.obj [("bool", Json.obj [("should", Json.arr cls)])] => cls
  | j => [j]

/-- The value stored under "slop" of a span_near clause. -/
def slopOf : Json → Option Json
  | Json.obj [(k, Json.obj kvs)] => if k == "span_near" then kvs.lookup "slop" else none
  | _ => none

/-- The in_order flag of a parsed Span, if the parse produced one. -/
def resultInOrder : Except String Node → Option Bool
  | Except.ok (Node.span _ _ _ io) => some io
  | _ => none

/-- The slop value of the span_near clause compiled from the input. -/
def resultSlopJson (s : String) : Option Json :=
  match parse s with
  | Except.ok j => slopOf j
  | Except.error _ => none

/-!
Helper lemmas.
-/

theorem map_getLast? {α β : Type} (f : α → β) (l : List α) :
    (l.map f).getLast? = l.getLast?.map f := by
  induction l with
  | nil => rfl
  | cons a l ih =>
    cases l with
    | nil => rfl
    | cons b t => simpa [List.getLast?_cons_cons] using ih

theorem normChar_idem (c : Char) : normChar (normChar c) = normChar c := by
  by_cases h : c = '!' <;> simp [normChar, h]

theorem map_normChar_idem (l : List Char) :
    (l.map normChar).map normChar = l.map normChar := by
  induction l with
  | nil => rfl
  | cons c t ih => simp [ih, normChar_idem]

theorem normText_idem (s : String) : normText (normText s) = normText s := by
  unfold normText
  congr 1
  exact map_normChar_idem s.data

theorem stepField_keeps (g : String) (fld f1 : Option String)
    (h : stepField (some g) fld = Except.ok f1) : f1 = some g := by
  cases fld with
  | none => simpa [stepField] using h.symm
  | some g2 =>
    by_cases hg : g = g2
    · subst hg
      simp [stepField] at h
      exact h.symm
    · simp [stepField, hg] at h

theorem stepField_sets (f : Option String) (g : String) (f1 : Option String)
    (h : stepField f (some g) = Except.ok f1) : f1 = some g := by
  cases f with
  | none => simpa [stepField] using h.symm
  | some g2 =>
    by_cases hg : g2 = g
    · subst hg
      simp [stepField] at h
      exact h.symm
    · simp [stepField, hg] at h

theorem check_span_inner_ok (ts : List Node) (f f2 : Option String) (ts2 : List Node)
    (h : check_span_inner ts f = Except.ok (f2, ts2)) :
    (∀ t ∈ ts, isTermNode t = true)
    ∧ (∀ g, f = some g → f2 = some g)
    ∧ (∀ g ∈ termFieldsOf ts, f2 = some g)
    ∧ (∀ t ∈ ts2, clearedTerm t = true) := by
  induction ts generalizing f f2 ts2 with
  | nil =>
    simp [check_span_inner] at h
    obtain ⟨hf, hts⟩ := h
    subst hf; subst hts
    exact ⟨by simp, fun g hg => hg, by simp [termFieldsOf], by simp⟩
  | cons t rest ih =>
    cases t with
    | term text fld =>
      simp only [check_span_inner] at h
      split at h
      · simp at h
      · rename_i f1 hsf
        split at h
        · simp at h
        · rename_i f3 rest3 hcr
          simp at h
          obtain ⟨hf2, hts2⟩ := h
          subst hf2; subst hts2
          obtain ⟨ihTerm, ihKeep, ihFields, ihClear⟩ := ih f1 f3 rest3 hcr
          refine ⟨?_, ?_, ?_, ?_⟩
          · intro u hu
            cases hu with
            | head => rfl
            | tail _ hu => exact ihTerm u hu
          · intro g hg
            exact ihKeep g (stepField_keeps g fld f1 (hg ▸ hsf))
          · intro g hg
            simp only [termFieldsOf] at hg
            rcases List.mem_append.mp hg with hg1 | hg2
            · cases fld with
              | none => simp [termFieldList] at hg1
              | some g0 =>
                simp [termFieldList] at hg1
                rw [hg1]
                exact ihKeep g0 (stepField_sets f g0 f1 hsf)
            · exact ihFields g hg2
          · intro u hu
            cases hu with
            | head => rfl
            | tail _ hu => exact ihClear u hu
    | quote text fld => simp [check_span_inner] at h
    | bool op ts1 impl => simp [check_span_inner] at h
    | span ts1 sl fld io => simp [check_span_inner] at h

theorem isBoolLike_false_of_term (u : Node) (h : isTermNode u = true) :
    isBoolLike u = false := by
  cases u with
  | term a b => rfl
  | quote a b => rfl
  | bool a b c => simp [isTermNode] at h
  | span a b c d => simp [isTermNode] at h

theorem any_isBoolLike_false (ts : List Node) (h : ∀ u ∈ ts, isTermNode u = true) :
    ts.any isBoolLike = false := by
  induction ts with
  | nil => rfl
  | cons u rest ih =>
    have hu := isBoolLike_false_of_term u (h u (List.mem_cons_self _ _))
    simp only [List.any_cons, hu, Bool.false_or]
    exact ih (fun v hv => h v (List.mem_cons_of_mem _ hv))

theorem check_span_ok (ts : List Node) (f f2 : Option String) (ts2 : List Node)
    (h : check_span ts f = Except.ok (f2, ts2)) :
    (∀ t ∈ ts, badChild t = false)
    ∧ (∀ g, f = some g → f2 = some g)
    ∧ (∀ g ∈ spanFields ts, f2 = some g)
    ∧ (∀ t ∈ ts2, cleared t = true) := by
  induction ts generalizing f f2 ts2 with
  | nil =>
    simp [check_span] at h
    obtain ⟨hf, hts⟩ := h
    subst hf; subst hts
    exact ⟨by simp, fun g hg => hg, by simp [spanFields], by simp⟩
  | cons t rest ih =>
    cases t with
    | term text fld =>
      simp only [check_span] at h
      split at h
      · simp at h
      · rename_i f1 hsf
        split at h
        · simp at h
        · rename_i f3 rest3 hcr
          simp at h
          obtain ⟨hf2, hts2⟩ := h
          subst hf2; subst hts2
          obtain ⟨ihBad, ihKeep, ihFields, ihClear⟩ := ih f1 f3 rest3 hcr
          refine ⟨?_, ?_, ?_, ?_⟩
          · intro u hu
            cases hu with
            | head => rfl
            | tail _ hu => exact ihBad u hu
          · intro g hg
            exact ihKeep g (stepField_keeps g fld f1 (hg ▸ hsf))
          · intro g hg
            simp only [spanFields, nodeFields] at hg
            rcases List.mem_append.mp hg with hg1 | hg2
            · cases fld with
              | none => simp [termFieldList] at hg1
              | some g0 =>
                simp [termFieldList] at hg1
                rw [hg1]
                exact ihKeep g0 (stepField_sets f g0 f1 hsf)
            · exact ihFields g hg2
          · intro u hu
            cases hu with
            | head => rfl
            | tail _ hu => exact ihClear u hu
    | quote text fld => simp [check_span] at h
    | span ts1 sl fld io => simp [check_span] at h
    | bool op ts1 impl =>
      simp only [check_span] at h
      by_cases hop : op = "OR"
      · rw [if_pos hop] at h
        split at h
        · simp at h
        · rename_i fld1 ts3 hin
          split at h
          · simp at h
          · rename_i f1 hsf
            split at h
            · simp at h
            · rename_i f3 rest3 hcr
              simp at h
              obtain ⟨hf2, hts2⟩ := h
              subst hf2; subst hts2
              obtain ⟨inTerm, inKeep, inFields, inClear⟩ :=
                check_span_inner_ok ts1 none fld1 ts3 hin
              obtain ⟨ihBad, ihKeep, ihFields, ihClear⟩ := ih f1 f3 rest3 hcr
              refine ⟨?_, ?_, ?_, ?_⟩
              · intro u hu
                cases hu with
                | head =>
                  simp only [badChild, hop]
                  simp [any_isBoolLike_false ts1 inTerm]
                | tail _ hu => exact ihBad u hu
              · intro g hg
                exact ihKeep g (stepField_keeps g fld1 f1 (hg ▸ hsf))
              · intro g hg
                simp only [spanFields, nodeFields] at hg
                rcases List.mem_append.mp hg with hg1 | hg2
                · have hfld : fld1 = some g := inFields g hg1
                  exact ihKeep g (hfld ▸ stepField_sets f g f1 (hfld ▸ hsf))
                · exact ihFields g hg2
              · intro u hu
                cases hu with
                | head =>
                  simp only [cleared]
                  exact List.all_eq_true.mpr inClear
                | tail _ hu => exact ihClear u hu
      · rw [if_neg hop] at h
        simp at h

theorem check_span_plain (ts : List Node) (f : Option String)
    (h : ∀ t ∈ ts, isPlainTerm t = true) : check_span ts f = Except.ok (f, ts) := by
  induction ts generalizing f with
  | nil => simp [check_span]
  | cons t rest ih =>
    have ht := h t (List.mem_cons_self _ _)
    cases t with
    | term text fld =>
      cases fld with
      | none =>
        simp [check_span, stepField, ih f (fun u hu => h u (List.mem_cons_of_mem _ hu))]
      | some g => simp [isPlainTerm] at ht
    | quote text fld => simp [isPlainTerm] at ht
    | bool op ts1 impl => simp [isPlainTerm] at ht
    | span ts1 sl fld io => simp [isPlainTerm] at ht

theorem get_clause_term_singleton (field text : String) (f : Option String) :
    ∃ x, get_clause field (Node.term text f) = [x] := by
  simp only [get_clause]
  split
  · exact ⟨_, rfl⟩
  · exact ⟨_, rfl⟩

theorem get_clause_term_length (field text : String) (f : Option String) :
    (get_clause field (Node.term text f)).length = 1 := by
  obtain ⟨x, hx⟩ := get_clause_term_singleton field text f
  simp [hx]

theorem get_clause_heads_length (field : String) (ts : List Node) :
    (get_clause_heads field ts).length = ts.length := by
  induction ts with
  | nil => rfl
  | cons t rest ih => simp [get_clause_heads, ih]

theorem get_clause_bool_length (field op : String) (ts : List Node) (impl : Bool) :
    (get_clause field (Node.bool op ts impl)).length = ts.length := by
  simp only [get_clause]
  exact get_clause_heads_length field ts

theorem listProduct_of_singletons (field : String) (ts : List Node)
    (h : ∀ t ∈ ts, ∃ x, get_clause field t = [x]) :
    listProduct (get_clause_lists field ts) = [get_clause_heads field ts] := by
  induction ts with
  | nil => simp [get_clause_lists, listProduct, get_clause_heads]
  | cons t rest ih =>
    obtain ⟨x, hx⟩ := h t (List.mem_cons_self _ _)
    have ih2 := ih (fun u hu => h u (List.mem_cons_of_mem _ hu))
    simp only [get_clause_lists, List.map_cons, listProduct, get_clause_heads] at ih2 ⊢
    rw [hx, ih2]
    simp

theorem unwrapSingle_two (a b : Json) (rest : List Json) :
    unwrapSingle (a :: b :: rest) = shouldJson (a :: b :: rest) := rfl

theorem topSpanNears_shouldJson (cls : List Json) :
    topSpanNears (shouldJson cls) = cls := rfl

theorem topSpanNears_spanNear (slop : String) (io : Bool) (cs : List Json) :
    topSpanNears (spanNearJson slop io cs) = [spanNearJson slop io cs] := rfl

theorem slopOf_spanNear (slop : String) (io : Bool) (cs : List Json) :
    slopOf (spanNearJson slop io cs) = some (Json.str slop) := rfl

/-!
Claim theorems.
-/

/-- C1: Compiling a Span takes each child's span-clause fragment list
(a Term yields one fragment, a nested OR yields one fragment per
disjunct), takes the cartesian product across the children, emits one
span_near per tuple carrying the Span's slop and in_order, and wraps the
result in bool/should only when more than one tuple arises; with exactly
one tuple (in particular when all children are Terms) the single
span_near clause is returned directly.  The input (a b) W/10 c compiles
to a bool/should of two span_near clauses, each still containing c. -/
theorem claim1_span_cartesian :
    (∀ field text f, (get_clause field (Node.term text f)).length = 1)
    ∧ (∀ field op ts impl, (get_clause field (Node.bool op ts impl)).length = ts.length)
    ∧ (∀ ts slop f io, (∀ t ∈ ts, isTermNode t = true) →
        get_dsl (Node.span ts slop f io) = spanNearJson slop io (get_clause_heads (qfield f) ts))
    ∧ (∀ ts slop f io, 1 < (listProduct (get_clause_lists (qfield f) ts)).length →
        get_dsl (Node.span ts slop f io)
          = shouldJson ((listProduct (get_clause_lists (qfield f) ts)).map (spanNearJson slop io)))
    ∧ parse "(a b) W/10 c" = Except.ok (shouldJson
        [spanNearJson "10" false [spanTermJson "_all" "a", spanTermJson "_all" "c"],
         spanNearJson "10" false [spanTermJson "_all" "b", spanTermJson "_all" "c"]]) := by
  refine ⟨get_clause_term_length, get_clause_bool_length, ?_, ?_, rfl⟩
  · intro ts slop f io h
    have hsing : ∀ t ∈ ts, ∃ x, get_clause (qfield f) t = [x] := by
      intro t ht
      have hT := h t ht
      cases t with
      | term text fld => exact get_clause_term_singleton (qfield f) text fld
      | quote a b => simp [isTermNode] at hT
      | bool a b c => simp [isTermNode] at hT
      | span a b c d => simp [isTermNode] at hT
    have hprod := listProduct_of_singletons (qfield f) ts hsing
    simp only [get_dsl, hprod, List.map, unwrapSingle]
  · intro ts slop f io hlen
    simp only [get_dsl]
    cases hL : listProduct (get_clause_lists (qfield f) ts) with
    | nil => rw [hL] at hlen; simp at hlen
    | cons a L2 =>
      cases L2 with
      | nil => rw [hL] at hlen; simp at hlen
      | cons b L3 =>
        simp only [List.map_cons]
        exact unwrapSingle_two _ _ _

/-- C1 witness: a Span with two Term children compiles to a single
span_near clause with no bool/should wrapper. -/
theorem claim1_span_cartesian_witness :
    get_dsl (Node.span [Node.term "a" none, Node.term "b" none] "7" none false)
      = spanNearJson "7" false (get_clause_heads "_all" [Node.term "a" none, Node.term "b" none]) :=
  claim1_span_cartesian.2.2.1 [Node.term "a" none, Node.term "b" none] "7" none false (by decide)

/-- C2: Span construction raises a parse error (and nothing is compiled)
whenever a child is an AND or NOT Boolean, a nested Span, an OR nested
deeper than one level, or when the children carry two distinct explicit
fields; the inputs x:a W/10 y:b, a W/10 (b AND c) and a W/10 (b W/5 c)
all fail during parsing. -/
theorem claim2_span_validation :
    (∀ terms slop f io,
      ((∃ t ∈ terms, badChild t = true)
        ∨ (∃ g1 ∈ spanFields terms, ∃ g2 ∈ spanFields terms, g1 ≠ g2)) →
      isErr (Span_new terms slop f io) = true)
    ∧ isErr (parse_to_terms "x:a W/10 y:b") = true
    ∧ isErr (parse_to_terms "a W/10 (b AND c)") = true
    ∧ isErr (parse_to_terms "a W/10 (b W/5 c)") = true := by
  refine ⟨?_, rfl, rfl, rfl⟩
  intro terms slop f io h
  cases hcs : check_span terms f with
  | error e => simp [Span_new, hcs, isErr]
  | ok p =>
    obtain ⟨f2, ts2⟩ := p
    exfalso
    obtain ⟨hbad, _, hflds, _⟩ := check_span_ok terms f f2 ts2 hcs
    cases h with
    | inl hb =>
      obtain ⟨t, ht, hbt⟩ := hb
      rw [hbad t ht] at hbt
      exact Bool.noConfusion hbt
    | inr hf =>
      obtain ⟨g1, hg1, g2, hg2, hne⟩ := hf
      have e1 := hflds g1 hg1
      have e2 := hflds g2 hg2
      rw [e1] at e2
      exact hne (Option.some.inj e2)

/-- C2 witness: a Span whose second child is an AND Boolean fails
construction. -/
theorem claim2_span_validation_witness :
    isErr (Span_new [Node.term "a" none,
      Node.bool "AND" [Node.term "b" none, Node.term "c" none] false] "10" none false) = true :=
  claim2_span_validation.1 _ "10" none false
    (Or.inl ⟨Node.bool "AND" [Node.term "b" none, Node.term "c" none] false,
      List.mem_cons_of_mem _ (List.mem_cons_self _ _), rfl⟩)

/-- C3: contrary to the claim, a quoted phrase with an internal (non-final)
wildcard and no trailing slop does NOT parse to a Span: get_term calls
Span(tokens.quote, tokens.field, 0, in_order=True) with scrambled
positional arguments (the phrase string lands in the terms parameter and
0 in the field parameter), so _check_span iterates over the characters of
the string and raises ParseError at the first character. -/
theorem claim3_internal_wildcard_phrase_bug :
    parse_to_terms "\"a* b\"" = Except.error "Proximity queries cannot contain: a"
    ∧ parse_to_terms "\"x* y\"" = Except.error "Proximity queries cannot contain: x"
    ∧ isErr (parse "\"a* b\"") = true := ⟨rfl, rfl, rfl⟩

/-- C4 counterexample: the phrase-slop query with a two-word body parses
successfully, but the resulting Span carries in_order = false, not
in_order = true as the claim states (lucene_span never passes in_order,
so Span.__init__'s default False applies); moreover the claim's error
half is also false of the code: the body a (b c) is not a flat
disjunction of plain terms, yet no parse error is raised - the query
succeeds as the Span over a and the nested disjunction. -/
theorem claim4_counterexample :
    resultInOrder (parse_to_terms "\"a b\"~5") = some false
    ∧ resultInOrder (parse_to_terms "\"a b\"~5") ≠ some true
    ∧ parse_to_terms "\"a (b c)\"~5"
      = Except.ok (Node.span [Node.term "a" none,
          Node.bool "OR" [Node.term "b" none, Node.term "c" none] true] "5" none false) := by
  refine ⟨rfl, ?_, rfl⟩
  intro h
  rw [show resultInOrder (parse_to_terms "\"a b\"~5") = some false from rfl] at h
  exact Bool.noConfusion (Option.some.inj h)

/-- C4 (amended): for every quoted phrase followed by a slop, the body is
re-parsed; if it parses to an implicit (juxtaposition) disjunction, the
result is the Span built from the disjunction's children with the given
slop, in_order = FALSE, and the field obtained by _check_span unifying
the phrase's field with the children's explicit fields (clearing them) -
and span construction may still raise, for forbidden children or field
conflicts, as it does for a (b AND c); if the body parses to anything
other than an implicit OR Boolean (a single term, an explicit OR, an
AND, NOT or proximity), the ParseError about needing a list of terms is
raised.  Concretely, a (b c) succeeds as a Span containing the nested
disjunction, x:a b succeeds with the field hoisted to the Span, and a
alone or a (b AND c) fail. -/
theorem claim4_amended_lucene_slop :
    (∀ fuel q f sl ts f2 ts2,
      parse_to_terms_fueled fuel q = Except.ok (Node.bool "OR" ts true) →
      check_span ts f = Except.ok (f2, ts2) →
      lucene_span (fuel + 1) q f sl = Except.ok (Node.span ts2 sl f2 false))
    ∧ (∀ fuel q f sl ts e,
      parse_to_terms_fueled fuel q = Except.ok (Node.bool "OR" ts true) →
      check_span ts f = Except.error e →
      lucene_span (fuel + 1) q f sl = Except.error (PErr.hard e))
    ∧ (∀ fuel q f sl c,
        parse_to_terms_fueled fuel q = Except.ok c →
        isImplicitOr c = false →
        lucene_span (fuel + 1) q f sl
          = Except.error (PErr.hard "Lucene-style proximity queries must contain a list of terms"))
    ∧ parse_to_terms "\"a (b c)\"~5"
      = Except.ok (Node.span [Node.term "a" none,
          Node.bool "OR" [Node.term "b" none, Node.term "c" none] true] "5" none false)
    ∧ parse_to_terms "\"x:a b\"~5"
      = Except.ok (Node.span [Node.term "a" none, Node.term "b" none] "5" (some "x") false)
    ∧ isErr (parse_to_terms "\"a\"~5") = true
    ∧ isErr (parse_to_terms "\"a OR b\"~5") = true
    ∧ isErr (parse_to_terms "\"a (b AND c)\"~5") = true := by
  refine ⟨?_, ?_, ?_, rfl, rfl, rfl, rfl, rfl⟩
  · intro fuel q f sl ts f2 ts2 hp hcs
    simp only [lucene_span, hp]
    simp [Span_new, hcs]
  · intro fuel q f sl ts e hp hcs
    simp only [lucene_span, hp]
    simp [Span_new, hcs]
  · intro fuel q f sl c hp himpl
    simp only [lucene_span, hp]
    cases c with
    | term a b => rfl
    | quote a b => rfl
    | span a b c d => rfl
    | bool op ts impl =>
      simp only [isImplicitOr] at himpl
      simp [himpl]

/-- C4 witness: lucene_span on the body a b with slop 9 yields the Span
over the two terms with in_order = false. -/
theorem claim4_amended_lucene_slop_witness :
    lucene_span 40 "a b" none "9"
      = Except.ok (Node.span [Node.term "a" none, Node.term "b" none] "9" none false) :=
  claim4_amended_lucene_slop.1 39 "a b" none "9" [Node.term "a" none, Node.term "b" none]
    none [Node.term "a" none, Node.term "b" none] rfl rfl

/-- C5: the phrase-slop shorthand and the explicit proximity operator are
equivalent: both inputs parse to the same Span node and compile to the
same DSL object. -/
theorem claim5_phrase_slop_equiv :
    parse_to_terms "\"a b\"~5"
      = Except.ok (Node.span [Node.term "a" none, Node.term "b" none] "5" none false)
    ∧ parse_to_terms "a W/5 b"
      = Except.ok (Node.span [Node.term "a" none, Node.term "b" none] "5" none false)
    ∧ parse "\"a b\"~5" = parse "a W/5 b" := ⟨rfl, rfl, rfl⟩

/-- C6: NOT is binary, left-associative and chainable: x NOT y NOT z parses
into a single NOT node with children [x, y, z], and a NOT node compiles
to bool/must of the first child and bool/must_not of the remaining
children. -/
theorem claim6_not_chain :
    parse_to_terms "x NOT y NOT z"
      = Except.ok (Node.bool "NOT"
          [Node.term "x" none, Node.term "y" none, Node.term "z" none] false)
    ∧ (∀ t rest impl, get_dsl (Node.bool "NOT" (t :: rest) impl)
        = Json.obj [("bool", Json.obj [("must", Json.arr [get_dsl t]),
            ("must_not", Json.arr (get_dsl_list rest))])])
    ∧ parse "x NOT y NOT z" = Except.ok (Json.obj [("bool", Json.obj
        [("must", Json.arr [Json.obj [("term", Json.obj [("_all", Json.str "x")])]]),
         ("must_not", Json.arr [Json.obj [("term", Json.obj [("_all", Json.str "y")])],
           Json.obj [("term", Json.obj [("_all", Json.str "z")])]])])]) := by
  refine ⟨rfl, ?_, rfl⟩
  intro t rest impl
  simp [get_dsl]

/-- C7: contrary to the claim, unparenthesized mixed expressions do not
group into nested AST nodes: the AST-building parse action fires only for
the outermost expression (and for parenthesized sub-expressions), so the
raw group produced at an inner precedence level is filtered out by
get_boolean_or_term.  x NOT y AND z yields NOT[x], silently dropping
y AND z, instead of the claimed NOT[x, AND[y, z]]; x y W/5 z yields the
implicit OR[x], dropping the span, instead of OR[x, Span[y, z]]. -/
theorem claim7_precedence_bug :
    parse_to_terms "x NOT y AND z" = Except.ok (Node.bool "NOT" [Node.term "x" none] false)
    ∧ parse_to_terms "x y W/5 z" = Except.ok (Node.bool "OR" [Node.term "x" none] true) :=
  ⟨rfl, rfl⟩

/-- C8 counterexample: AST nodes are not immutable: get_term constructs the
Term for x:a with field = some x, yet the tree returned by parse_to_terms
for x:a W/10 b contains that Term with its field cleared to none (the
mutation term.field = None performed by _check_span during Span
construction), so a constructed node had its field attribute changed. -/
theorem claim8_counterexample :
    get_term 1 (Tok.word (some "x") "a") = Except.ok (Node.term "a" (some "x"))
    ∧ parse_to_terms "x:a W/10 b"
      = Except.ok (Node.span [Node.term "a" none, Node.term "b" none] "10" (some "x") false)
    ∧ Node.term "a" (some "x") ≠ Node.term "a" none := by
  refine ⟨rfl, rfl, ?_⟩
  intro h
  injection h with h1 h2
  exact Option.noConfusion h2

/-- C8 (amended): apart from the field clearing performed by Span
construction - whenever _check_span succeeds, every Term inside the
resulting Span (directly or through a one-level disjunction) has its
field attribute cleared to none, the unified field having been hoisted to
the Span - the tree is never mutated: compilation (get_dsl) is a pure
function of the tree. -/
theorem claim8_amended_field_clearing :
    ∀ terms f f2 terms2, check_span terms f = Except.ok (f2, terms2) →
      ∀ t ∈ terms2, cleared t = true := by
  intro terms f f2 terms2 h
  exact (check_span_ok terms f f2 terms2 h).2.2.2

/-- C8 witness: checking the span [x:a, b] succeeds and the term for a
comes out with its field cleared. -/
theorem claim8_amended_field_clearing_witness :
    cleared (Node.term "a" none) = true :=
  claim8_amended_field_clearing [Node.term "a" (some "x"), Node.term "b" none] none
    (some "x") [Node.term "a" none, Node.term "b" none] rfl
    (Node.term "a" none) (List.mem_cons_self _ _)

/-- C9 counterexample: the slop carried in the emitted span_near clause for
a W/10 b is the digit string "10", not the integer 10: the source never
converts the matched digits to an integer (its own unit test asserts the
string as well). -/
theorem claim9_counterexample :
    resultSlopJson "a W/10 b" = some (Json.str "10")
    ∧ Json.str "10" ≠ Json.num 10 :=
  ⟨rfl, fun h => Json.noConfusion h⟩

/-- C9 (amended): every span_near clause emitted when compiling a Span
carries under "slop" exactly the uninterpreted digit substring taken from
the input (a string, denoting the non-negative integer written after W/
or the tilde), not a converted integer. -/
theorem claim9_amended_slop_string :
    ∀ ts slop f io, ∀ j ∈ topSpanNears (get_dsl (Node.span ts slop f io)),
      slopOf j = some (Json.str slop) := by
  intro ts slop f io j hj
  simp only [get_dsl] at hj
  cases hL : listProduct (get_clause_lists (qfield f) ts) with
  | nil =>
    rw [hL] at hj
    simp [unwrapSingle, topSpanNears, shouldJson] at hj
  | cons a L2 =>
    cases L2 with
    | nil =>
      rw [hL] at hj
      simp only [List.map_cons, List.map_nil, unwrapSingle] at hj
      rw [topSpanNears_spanNear] at hj
      simp at hj
      rw [hj]
      exact slopOf_spanNear slop io a
    | cons b L3 =>
      rw [hL] at hj
      simp only [List.map_cons, unwrapSingle_two] at hj
      rw [topSpanNears_shouldJson] at hj
      simp only [List.mem_cons] at hj
      rcases hj with hj | hj | hj
      · rw [hj]; exact slopOf_spanNear slop io a
      · rw [hj]; exact slopOf_spanNear slop io b
      · obtain ⟨c, _, hc⟩ := List.mem_map.mp hj
        rw [← hc]
        exact slopOf_spanNear slop io c

/-- C9 witness: the span_near compiled from a one-term span with slop 3
carries the string "3". -/
theorem claim9_amended_slop_string_witness :
    slopOf (spanNearJson "3" false [spanTermJson "_all" "a"]) = some (Json.str "3") :=
  claim9_amended_slop_string [Node.term "a" none] "3" none false
    (spanNearJson "3" false [spanTermJson "_all" "a"])
    (show spanNearJson "3" false [spanTermJson "_all" "a"]
        ∈ topSpanNears (get_dsl (Node.span [Node.term "a" none] "3" none false)) from
      List.mem_singleton_self _)

/-- C10: wildcard normalization of the bang to the star applies inside
quoted phrases: every bang in the phrase text is replaced at
construction, so a phrase whose raw text ends in a bang compiles to the
match_phrase_prefix variant with the final wildcard character stripped,
exactly as if it had ended in a star; concretely the phrase a b-bang
compiles to match_phrase_prefix on a b and equals the compilation of the
phrase a b-star. -/
theorem claim10_bang_wildcard :
    (∀ s f, s.data.getLast? = some '!' →
      get_dsl (mkQuote s f) = Json.obj [("match_phrase_prefix",
        Json.obj [(qfield f, Json.str (dropLastChar (normText s)))])]
      ∧ mkQuote s f = mkQuote (normText s) f)
    ∧ parse "\"a b!\""
      = Except.ok (Json.obj [("match_phrase_prefix", Json.obj [("_all", Json.str "a b")])])
    ∧ parse "\"a b!\"" = parse "\"a b*\"" := by
  refine ⟨?_, rfl, rfl⟩
  intro s f h
  constructor
  · have hlast : (normText s).data.getLast? = some '*' := by
      show ((s.data.map normChar).getLast? = some '*')
      rw [map_getLast?, h]
      rfl
    have hstar : lastIsStar (normText s) = true := by
      simp [lastIsStar, hlast]
    simp [mkQuote, get_dsl, hstar]
  · simp only [mkQuote]
    rw [normText_idem]

/-- C10 witness: the quoted phrase b-bang compiles to the phrase-prefix
variant on b, the same node as the phrase b-star. -/
theorem claim10_bang_wildcard_witness :
    get_dsl (mkQuote "b!" none)
      = Json.obj [("match_phrase_prefix", Json.obj [("_all", Json.str "b")])]
    ∧ mkQuote "b!" none = mkQuote (normText "b!") none :=
  claim10_bang_wildcard.1 "b!" none rfl

end AmcatQP
